import Mathlib

/-!
Verification development for the bulk DOI resolution engine
(`pyBulkDOIresolver.py`).

The Python source is shallowly embedded as executable Lean definitions:

* registry response items become the structure `Item` (a JSON object is
  modelled by its fields, with absent keys modelled as the empty string /
  empty list defaults that `dict.get` supplies in the source);
* the remote service is modelled by an `Oracle`: a pure function from the
  requested batch and the zero-based attempt number to the `Outcome` of
  that HTTP request (a status code plus response items, or a network-level
  request exception).  A JSON-decoding failure of the response body is a
  `requests` exception in the source and is covered by the `netExn`
  outcome;
* `time.sleep` calls are recorded in a trace (`sleeps`), remote calls in a
  trace (`calls`), and malformed-log writes in a trace (`log`), so that
  the side effects of the engine are visible to theorems;
* the orchestrator loop of `main` (lines 267-324) becomes `runLoop`, a
  state-passing function over `LoopState`; the durable CSV file and the
  checkpoint saves are part of that state.  Write failures of
  `write_csv_safely` are injected through a schedule `wfail : Nat → Bool`
  (whether the write of the n-th batch of the session raises), mirroring
  that the source catches every exception inside `write_csv_safely`.

`batch_size = 0` makes Python's `range(0, n, 0)` raise `ValueError`; the
model returns the state unchanged in that case and every theorem about the
loop assumes `0 < B`.
-/

/-- A matched registry item, i.e. the JSON object the source reads with
`item.get(...)`.  Absent keys are modelled by the defaults `dict.get`
supplies in `parse_metadata`: `''` for strings, `[]`/`['']` for lists
(`''.join` of either list form is `""`, so `[]` is the faithful default).
An author entry is the pair `(given, family)`. -/
structure Item where
  DOI : String
  title : List String
  authors : List (String × String)
  containerTitle : List String
  issn : List String
  volume : String
  issue : String
  pages : String
deriving Repr, DecidableEq

/-- The normalized metadata record produced by `parse_metadata`. -/
structure MetaRec where
  DOI : String
  Title : String
  Authors : String
  Journal : String
  ISSN : String
  Volume : String
  Issue : String
  Pages : String
deriving Repr, DecidableEq

/-- `f"{given} {family}".strip()` from `parse_metadata`. -/
def authorName (a : String × String) : String :=
  (a.1 ++ " " ++ a.2).trim

/-- `parse_metadata(item)` (source lines 130-146) for a (truthy) matched
item.  `'; '.join` of the non-blank author names, `''.join` of the title
and container-title lists, `', '.join` of the ISSN list. -/
def parse_metadata (item : Item) : MetaRec :=
  { DOI := item.DOI
  , Title := String.join item.title
  , Authors := String.intercalate "; " ((item.authors.map authorName).filter (· ≠ ""))
  , Journal := String.join item.containerTitle
  , ISSN := String.intercalate ", " item.issn
  , Volume := item.volume
  , Issue := item.issue
  , Pages := item.pages }

/-- `output_headers` (source line 250). -/
def output_headers : List String :=
  ["DOI", "Title", "Authors", "Journal", "ISSN", "Volume", "Issue", "Pages"]

/-- `[str(parsed_data.get(header, '')) for header in output_headers]`
(source line 290): the record's fields in `output_headers` order. -/
def metaValues (m : MetaRec) : List String :=
  [m.DOI, m.Title, m.Authors, m.Journal, m.ISSN, m.Volume, m.Issue, m.Pages]

/-- `metadata_map = {item.get('DOI','').lower(): item for item in
metadata_items if item}` followed by `metadata_map.get(key)` (source
lines 277, 285).  A Python dict comprehension keeps the last item for a
duplicated key, hence the lookup scans the reversed list. -/
def mkLookup (items : List Item) (key : String) : Option Item :=
  items.reverse.find? (fun it => it.DOI.toLower == key)

/-- The per-position output values (source lines 283-290): all-empty for a
missing identifier or an identifier absent from the lookup; otherwise the
parsed record, with the raw requested identifier substituted only when the
parsed `DOI` field is empty (`if not parsed_data.get('DOI')`). -/
def rowOutputValues (lookup : String → Option Item) (d : Option String) : List String :=
  match d with
  | none => List.replicate 8 ""
  | some doi =>
    match lookup doi.toLower with
    | none => List.replicate 8 ""
    | some item =>
      let parsed := parse_metadata item
      let parsed := if parsed.DOI = "" then { parsed with DOI := doi } else parsed
      metaValues parsed

/-- `row.extend([''] * (n - len(row)))`: pad a row with empty cells up to
length `n` (source lines 254-255 and 293-294); a no-op when the row is
already long enough. -/
def padRow (row : List String) (n : Nat) : List String :=
  row ++ List.replicate (n - row.length) ""

/-- `for k, value in enumerate(vals): row[start + k] = value`
(source lines 256-257 and 296-297). -/
def setCells (row : List String) (start : Nat) (vals : List String) : List String :=
  match vals with
  | [] => row
  | v :: vs => setCells (row.set start v) (start + 1) vs

/-- The row mutation of the engine: extend the row to
`start + len(vals)` cells if needed, then overwrite the span of
`vals.length` cells starting at `start` (source lines 292-297). -/
def writeSpan (row : List String) (start : Nat) (vals : List String) : List String :=
  setCells (padRow row (start + vals.length)) start vals

/-- The header mutation performed on a fresh run (source lines 252-257):
write `output_headers` into the engine-owned span of the header row. -/
def setHeader (header : List String) (outIdx : Nat) : List String :=
  writeSpan header outIdx output_headers

/-- The inner row loop of a batch (source lines 279-297): for each position
of the slice, in order, write the 8 output values into the row at the
current absolute index.  `rows.getD pos []` models `data_rows[idx]`
(in every run of the source, `idx` is in range because `dois` has exactly
one entry per data row). -/
def processSlice (outIdx : Nat) (lookup : String → Option Item) :
    Nat → List (Option String) → List (List String) → List (List String)
  | _, [], rows => rows
  | pos, d :: rest, rows =>
    let target := rows.getD pos []
    let newRow := writeSpan target outIdx (rowOutputValues lookup d)
    processSlice outIdx lookup (pos + 1) rest (rows.set pos newRow)

/-- The outcome of one HTTP request to the registry: a response with a
status code and the parsed `message.items` list, or a network-level
`requests` exception (which also covers a JSON-decode failure of the
body, a `requests` exception in the source). -/
inductive Outcome where
  | resp (code : Nat) (items : List Item)
  | netExn
deriving Repr, DecidableEq

/-- The remote service as a pure function of the requested (already
filtered) batch and the zero-based attempt number within the current
`get_metadata_in_batch` call. -/
abbrev Oracle := List String → Nat → Outcome

/-- Whether this outcome is the `requests.exceptions.RequestException`
case (as opposed to a response object). -/
def Outcome.isNetExn : Outcome → Bool
  | .netExn => true
  | .resp _ _ => false

/-- `response.status_code`; the value for the exception case is never
consulted. -/
def Outcome.status : Outcome → Nat
  | .netExn => 0
  | .resp c _ => c

/-- `response.json().get('message', {}).get('items', [])`; the value for
the exception case is never consulted. -/
def Outcome.body : Outcome → List Item
  | .netExn => []
  | .resp _ items => items

/-- The observable result of a `get_metadata_in_batch` call: the returned
items, the identifiers appended to the malformed log, the batches sent to
the remote service (one entry per HTTP request, in order), and the
`time.sleep` durations taken (in seconds, in order). -/
structure FetchRes where
  items : List Item
  log : List String
  calls : List (List String)
  sleeps : List Nat
deriving Repr, DecidableEq

/-- Termination helper: filtering the first half of a list of length at
least two gives a strictly shorter list. -/
theorem take_half_filter_lt (l : List String) (h : 2 ≤ l.length) :
    ((l.take (l.length / 2)).filter (· ≠ "")).length < l.length := by
  have h1 := List.length_filter_le (fun x => decide (x ≠ "")) (l.take (l.length / 2))
  have h2 := List.length_take (l.length / 2) l
  omega

/-- Termination helper: filtering the second half of a list of length at
least two gives a strictly shorter list. -/
theorem drop_half_filter_lt (l : List String) (h : 2 ≤ l.length) :
    ((l.drop (l.length / 2)).filter (· ≠ "")).length < l.length := by
  have h1 := List.length_filter_le (fun x => decide (x ≠ "")) (l.drop (l.length / 2))
  have h2 := List.length_drop (l.length / 2) l
  omega

/-- The retry loop of `get_metadata_in_batch` (source lines 70-108),
entered with the already-filtered batch `valid` at attempt number
`attempt`:

* three attempts in total (`max_retries = 3`); past them, the batch is
  abandoned and the call returns `[]` (line 107-108);
* status 429/503: sleep 10 and retry the same batch (lines 73-76);
* otherwise `raise_for_status` raises for a status `≥ 400` (line 77):
  a 400 triggers the malformed-batch handling (lines 81-98) — a
  single-identifier batch is logged and dropped, a longer batch is split
  at `len // 2` and each half re-enters `get_metadata_in_batch` (which
  re-filters and restarts from attempt 0); any other HTTP error abandons
  the batch (lines 99-100);
* a status `< 400` returns the response items (line 79);
* a network exception sleeps 2 (except on the last attempt) and retries
  (lines 101-106).

The source splits `valid_dois` by `len(valid_dois) == 1` versus longer;
the final length-0 sub-case of the 400 branch is unreachable (the loop is
only entered on a non-empty filtered batch) and the model abandons the
batch there. -/
def fetchGo (oracle : Oracle) (valid : List String) (attempt : Nat) : FetchRes :=
  if 3 ≤ attempt then ⟨[], [], [], []⟩
  else
    let o := oracle valid attempt
    if o.isNetExn then
      let r := fetchGo oracle valid (attempt + 1)
      ⟨r.items, r.log, valid :: r.calls, (if attempt < 2 then [2] else []) ++ r.sleeps⟩
    else if o.status = 429 ∨ o.status = 503 then
      let r := fetchGo oracle valid (attempt + 1)
      ⟨r.items, r.log, valid :: r.calls, 10 :: r.sleeps⟩
    else if 400 ≤ o.status then
      if o.status = 400 then
        if valid.length = 1 then ⟨[], [valid.head!], [valid], []⟩
        else if _h2 : 1 < valid.length then
          let mid := valid.length / 2
          let f1 := (valid.take mid).filter (· ≠ "")
          let f2 := (valid.drop mid).filter (· ≠ "")
          let r1 := if f1 = [] then ⟨[], [], [], []⟩ else fetchGo oracle f1 0
          let r2 := if f2 = [] then ⟨[], [], [], []⟩ else fetchGo oracle f2 0
          ⟨r1.items ++ r2.items, r1.log ++ r2.log,
           valid :: (r1.calls ++ r2.calls), r1.sleeps ++ r2.sleeps⟩
        else ⟨[], [], [valid], []⟩
      else ⟨[], [], [valid], []⟩
    else ⟨o.body, [], [valid], []⟩
termination_by 4 * valid.length + (3 - attempt)
decreasing_by
  all_goals first
    | omega
    | (have h := take_half_filter_lt valid (by omega); omega)
    | (have h := drop_half_filter_lt valid (by omega); omega)

/-- `get_metadata_in_batch(dois, log)` (source lines 56-108): filter out
falsy identifiers; return `[]` immediately (no HTTP request, no log write)
when nothing remains; otherwise enter the retry loop at attempt 0. -/
def get_metadata_in_batch (oracle : Oracle) (dois : List String) : FetchRes :=
  let valid := dois.filter (· ≠ "")
  if valid = [] then ⟨[], [], [], []⟩
  else fetchGo oracle valid 0

/-- Decimal rendering of a natural number, as Python's f-string `{index}`
writes it in `save_progress` (source line 114). -/
def natToDec (n : Nat) : String :=
  if n = 0 then "0"
  else ⟨(Nat.digits 10 n).reverse.map (fun d => Char.ofNat (d + 48))⟩

/-- The model of Python's `int(s)` on the strings `load_progress` feeds it
(source line 121): a non-empty all-digit string parses to its decimal
value, anything else raises `ValueError` (`none`).  This covers every
value `save_progress` ever writes; the sign/underscore forms Python's
`int` additionally accepts never arise from the engine and are not
modelled. -/
def parseNatDec (s : String) : Option Nat :=
  if s.data = [] then none
  else if s.data.all (fun c => 48 ≤ c.toNat ∧ c.toNat ≤ 57) then
    some (Nat.ofDigits 10 ((s.data.map (fun c => c.toNat - 48)).reverse))
  else none

/-- Python's `str.strip()` with no argument: remove leading and trailing
whitespace. -/
def pyStrip (s : String) : String :=
  ⟨((s.data.dropWhile Char.isWhitespace).reverse.dropWhile Char.isWhitespace).reverse⟩

/-- The checkpoint file as a list of text lines (`none` = the file does
not exist).  `save_progress(filename, index)` writes
`f"{filename}\n{index}"` (source lines 111-114): assuming the job key
itself contains no newline, the file then holds exactly these two
lines. -/
def save_progress (filename : String) (index : Nat) : Option (List String) :=
  some [filename, natToDec index]

/-- `load_progress()` (source lines 116-123).  `readline()` past the end
of the file returns `""`; `.strip()` is `pyStrip`; a failing
`int(...)` (`ValueError`) yields the no-checkpoint result `(None, 0)`, as
does an absent file. -/
def load_progress (file : Option (List String)) : Option String × Nat :=
  match file with
  | none => (none, 0)
  | some lines =>
    match parseNatDec (pyStrip (lines.getD 1 "")) with
    | some n => (some (pyStrip (lines.getD 0 "")), n)
    | none => (none, 0)

/-- The mutable state the orchestrator loop threads (source lines
263-324): the in-memory data rows, the durable CSV file (`none` until a
write succeeds; `some (header, rows)` afterwards — `write_csv_safely`
either atomically replaces the whole file or leaves it untouched), the
offsets passed to `save_progress` in order, and the accumulated remote
call and malformed-log traces. -/
structure LoopState where
  rows : List (List String)
  durable : Option (List String × List (List String))
  offsets : List Nat
  calls : List (List String)
  log : List String
deriving Repr, DecidableEq

/-- The fetch step of one batch (source lines 271-275):
`batch_dois_to_query = [doi for doi in batch_slice if doi]` keeps the
present, non-empty identifiers; `get_metadata_in_batch` is invoked only
when that list is non-empty. -/
def batchFetch (oracle : Oracle) (B : Nat) (todo : List (Option String)) : FetchRes :=
  let slice := todo.take B
  let query := (slice.filterMap id).filter (· ≠ "")
  if query = [] then ⟨[], [], [], []⟩
  else get_metadata_in_batch oracle query

/-- The orchestrator loop (source lines 267-324), as a function of the
remaining identifier slots `todo = dois[pos:]`, the absolute offset `pos`
of the first of them, the session batch counter `bidx` (used only to index
the write-failure schedule `wfail`), and the running state.  One iteration
processes `todo[:B]`: fetch, merge into the rows, write the CSV
(`write_csv_safely` swallows a failing write, leaving the durable file
unchanged), then unconditionally `save_progress` with
`start_index + session_processed_count = pos + len(slice)`.
`B = 0` would make Python's `range` raise; the model stops instead and
theorems assume `0 < B`. -/
def runLoop (oracle : Oracle) (wfail : Nat → Bool) (B : Nat) (hdr : List String)
    (outIdx : Nat) (pos : Nat) (todo : List (Option String)) (bidx : Nat)
    (st : LoopState) : LoopState :=
  if B = 0 then st
  else if todo = [] then st
  else
    let slice := todo.take B
    let fr := batchFetch oracle B todo
    let rows2 := processSlice outIdx (mkLookup fr.items) pos slice st.rows
    let off := pos + slice.length
    runLoop oracle wfail B hdr outIdx off (todo.drop B) (bidx + 1)
      { rows := rows2
      , durable := if wfail bidx then st.durable else some (hdr, rows2)
      , offsets := st.offsets ++ [off]
      , calls := st.calls ++ fr.calls
      , log := st.log ++ fr.log }
termination_by todo.length
decreasing_by
  have h := List.length_drop B todo
  have h2 : todo.length ≠ 0 := by
    intro hlen
    exact absurd (List.eq_nil_of_length_eq_zero hlen) (by assumption)
  omega

/-- The batch slices `dois_to_process[i:i+B]` taken by the loop, in
order. -/
def batchSlices (B : Nat) (todo : List (Option String)) : List (List (Option String)) :=
  if B = 0 then []
  else if todo = [] then []
  else todo.take B :: batchSlices B (todo.drop B)
termination_by todo.length
decreasing_by
  have h := List.length_drop B todo
  have h2 : todo.length ≠ 0 := by
    intro hlen
    exact absurd (List.eq_nil_of_length_eq_zero hlen) (by assumption)
  omega

/-- The running cumulative offsets for a list of slices: for slices
`s₁, s₂, …` starting at offset `start`, the list
`start + |s₁|, start + |s₁| + |s₂|, …`. -/
def scanSums (start : Nat) : List (List (Option String)) → List Nat
  | [] => []
  | s :: ss => (start + s.length) :: scanSums (start + s.length) ss

/-- The first `k` iterations of the orchestrator loop, keeping only the
data the continuation depends on: the absolute offset, the remaining
identifier slots, and the in-memory rows.  Used to express "the state
after batch `k`" when stating crash/resume properties. -/
def midRun (oracle : Oracle) (B outIdx : Nat) :
    Nat → Nat × List (Option String) × List (List String) →
    Nat × List (Option String) × List (List String)
  | 0, s => s
  | k + 1, (pos, todo, rows) =>
    if B = 0 then (pos, todo, rows)
    else if todo = [] then (pos, todo, rows)
    else
      let slice := todo.take B
      let fr := batchFetch oracle B todo
      let rows2 := processSlice outIdx (mkLookup fr.items) pos slice rows
      midRun oracle B outIdx k (pos + slice.length, todo.drop B, rows2)

/-- The startup and orchestration of `main` (source lines 160-327), from
the point where the CSV has been read into `allRows` and the column
letters have been translated to indices (file reading and Excel-letter
translation are collaborator concerns; a failure there also aborts before
any batch).  The identifier screening loop (lines 197-214) applies a
collaborator extraction function `extract` (the DOI regex with the
redirector-prefix cleanup) to the cell at `doiCol`; a row too short for
`doiCol` appends `None` (the `IndexError` branch).

An `Except.error` return models the early `return` paths of `main`: the
empty file (line 164-166), the DOI column bound check (lines 184-186) and
the no-valid-DOIs exit (lines 220-222).  Each happens before any batch,
any remote call, any CSV write and any checkpoint write.  Note the output
start column is never bounds-checked: lines 252-257 and 292-297 extend
the header and rows instead.

On the happy path the result carries the (possibly updated) header and
the final loop state.  `start_index` comes from `load_progress` exactly
when `--resume` was given, the stored job key equals the input filename
and the stored offset is positive (lines 237-248). -/
def mainModel (extract : String → Option String) (oracle : Oracle) (wfail : Nat → Bool)
    (allRows : List (List String)) (doiCol outIdx B : Nat) (resume : Bool)
    (chkFile : Option (List String)) (inputName : String) :
    Except String (List String × LoopState) :=
  match allRows with
  | [] => .error "The CSV file is empty."
  | header :: dataRows =>
    if header.length ≤ doiCol then .error "DOI column is out of bounds"
    else
      let dois := dataRows.map (fun row => (row.get? doiCol).bind extract)
      if dois.all (fun d => d.getD "" = "") then .error "No valid DOIs found"
      else
        let loaded := load_progress chkFile
        let start := if resume ∧ loaded.1 = some inputName ∧ 0 < loaded.2 then loaded.2 else 0
        let hdr := if start = 0 then setHeader header outIdx else header
        let st := runLoop oracle wfail B hdr outIdx start (dois.drop start) 0
          { rows := dataRows, durable := some (header, dataRows)
          , offsets := [], calls := [], log := [] }
        .ok (hdr, st)

/-- A minimal registry item carrying just the echoed identifier, used by
the oracles of the bisection properties. -/
def mkItem (d : String) : Item := ⟨d, [], [], [], [], "", "", ""⟩

/-- A remote service with exactly one poisoned identifier `bad`: any batch
containing it is rejected with 400, any other batch resolves every
requested identifier. -/
def oracleOneBad (bad : String) : Oracle := fun b _ =>
  if bad ∈ b then .resp 400 [] else .resp 200 (b.map mkItem)

theorem char_digit_toNat (d : Nat) (h : d < 10) : (Char.ofNat (d + 48)).toNat = d + 48 := by
  interval_cases d <;> decide

theorem char_digit_not_ws (d : Nat) (h : d < 10) :
    (Char.ofNat (d + 48)).isWhitespace = false := by
  interval_cases d <;> decide

theorem pyStrip_of_no_ws (s : String) (h : ∀ c ∈ s.data, c.isWhitespace = false) :
    pyStrip s = s := by
  cases s with
  | mk l =>
    simp only [String.data] at h
    unfold pyStrip
    have h1 : l.dropWhile Char.isWhitespace = l := by
      rw [List.dropWhile_eq_self_iff]
      intro hl
      simp only [Bool.not_eq_true]
      exact h _ (List.get_mem l 0 hl)
    have h2 : l.reverse.dropWhile Char.isWhitespace = l.reverse := by
      rw [List.dropWhile_eq_self_iff]
      intro hl
      simp only [Bool.not_eq_true]
      exact h _ (List.mem_reverse.mp (List.get_mem l.reverse 0 hl))
    simp only [String.data, h1, h2, List.reverse_reverse]

theorem natToDec_no_ws (n : Nat) : ∀ c ∈ (natToDec n).data, c.isWhitespace = false := by
  by_cases h : n = 0
  · subst h; decide
  · unfold natToDec
    simp only [h, if_false, String.data]
    intro c hc
    rcases List.mem_map.mp hc with ⟨d, hd, rfl⟩
    exact char_digit_not_ws d (Nat.digits_lt_base (by norm_num) (List.mem_reverse.mp hd))

theorem parseNatDec_natToDec (n : Nat) : parseNatDec (natToDec n) = some n := by
  by_cases h : n = 0
  · subst h; decide
  · have hdig : ∀ d ∈ Nat.digits 10 n, d < 10 :=
      fun d hd => Nat.digits_lt_base (by norm_num) hd
    unfold natToDec parseNatDec
    simp only [h, if_false, String.data]
    have hne : (Nat.digits 10 n).reverse.map (fun d => Char.ofNat (d + 48)) ≠ [] := by
      simp [Nat.digits_ne_nil_iff_ne_zero.mpr h]
    rw [if_neg hne]
    have hall : ((Nat.digits 10 n).reverse.map (fun d => Char.ofNat (d + 48))).all
        (fun c => decide (48 ≤ c.toNat ∧ c.toNat ≤ 57)) = true := by
      rw [List.all_eq_true]
      intro c hc
      rcases List.mem_map.mp hc with ⟨d, hd, rfl⟩
      have hdlt : d < 10 := hdig d (List.mem_reverse.mp hd)
      rw [char_digit_toNat d hdlt]
      simp
      omega
    rw [if_pos hall]
    congr 1
    rw [List.map_map]
    have hmap : ((Nat.digits 10 n).reverse.map
        ((fun c => c.toNat - 48) ∘ (fun d => Char.ofNat (d + 48)))) = (Nat.digits 10 n).reverse := by
      have := List.map_congr_left (l := (Nat.digits 10 n).reverse)
        (f := (fun (c : Char) => c.toNat - 48) ∘ (fun d => Char.ofNat (d + 48))) (g := id) ?_
      · simpa using this
      · intro d hd
        have hdlt : d < 10 := hdig d (List.mem_reverse.mp hd)
        simp [Function.comp, char_digit_toNat d hdlt]
    rw [hmap, List.reverse_reverse, Nat.ofDigits_digits]

theorem pyStrip_natToDec (n : Nat) : pyStrip (natToDec n) = natToDec n :=
  pyStrip_of_no_ws _ (natToDec_no_ws n)

theorem load_save_roundtrip (f : String) (n : Nat) (hf : pyStrip f = f) :
    load_progress (save_progress f n) = (some f, n) := by
  unfold load_progress save_progress
  simp only [List.getD_cons_succ, List.getD_cons_zero]
  rw [pyStrip_natToDec, parseNatDec_natToDec, hf]

/-- C8: `load_progress` returns the last saved `(job key, offset)` pair
when a well-formed checkpoint exists, and returns the no-checkpoint result
`(none, 0)` whenever the checkpoint file is absent, empty, truncated to
one line, or has an unparsable offset — a corrupt checkpoint is treated as
"no checkpoint", never as an error. -/
theorem load_progress_robust :
    (load_progress none = (none, 0)) ∧
    (load_progress (some []) = (none, 0)) ∧
    (∀ l : String, load_progress (some [l]) = (none, 0)) ∧
    (∀ f s, parseNatDec (pyStrip s) = none → load_progress (some [f, s]) = (none, 0)) ∧
    (∀ f n, pyStrip f = f → load_progress (save_progress f n) = (some f, n)) := by
  refine ⟨rfl, by decide, fun l => rfl, fun f s h => ?_, load_save_roundtrip⟩
  simp [load_progress, h]

/-- C8 witness: concrete instances discharging the hypotheses of
`load_progress_robust`. -/
theorem load_progress_robust_witness :
    (load_progress (some ["in.csv"]) = (none, 0)) ∧
    (parseNatDec (pyStrip "x7") = none ∧ load_progress (some ["in.csv", "x7"]) = (none, 0)) ∧
    (pyStrip "in.csv" = "in.csv" ∧ load_progress (save_progress "in.csv" 37) = (some "in.csv", 37)) :=
  ⟨load_progress_robust.2.2.1 "in.csv",
   ⟨by decide, load_progress_robust.2.2.2.1 "in.csv" "x7" (by decide)⟩,
   ⟨by decide, load_progress_robust.2.2.2.2 "in.csv" 37 (by decide)⟩⟩

theorem setCells_getElem?_lt (row : List String) (start : Nat) (vals : List String) (j : Nat)
    (h : j < start) : (setCells row start vals)[j]? = row[j]? := by
  induction vals generalizing row start with
  | nil => rfl
  | cons v vs ih =>
    rw [setCells, ih _ _ (by omega), List.getElem?_set_ne (by omega)]

theorem setCells_getElem?_ge (row : List String) (start : Nat) (vals : List String) (j : Nat)
    (h : start + vals.length ≤ j) : (setCells row start vals)[j]? = row[j]? := by
  induction vals generalizing row start with
  | nil => rfl
  | cons v vs ih =>
    simp only [List.length_cons] at h
    rw [setCells, ih _ _ (by omega), List.getElem?_set_ne (by omega)]

theorem setCells_getElem?_in (row : List String) (start : Nat) (vals : List String) (k : Nat)
    (hk : k < vals.length) (hlen : start + vals.length ≤ row.length) :
    (setCells row start vals)[start + k]? = vals[k]? := by
  induction vals generalizing row start k with
  | nil => simp at hk
  | cons v vs ih =>
    simp only [List.length_cons] at hk hlen
    cases k with
    | zero =>
      rw [setCells, setCells_getElem?_lt _ _ _ _ (by omega)]
      rw [Nat.add_zero, List.getElem?_set_self (by omega)]
      simp
    | succ k =>
      rw [setCells]
      have harr : start + (k + 1) = (start + 1) + k := by omega
      rw [harr, ih _ _ _ (by omega) (by rw [List.length_set]; omega)]
      simp

theorem padRow_getElem?_lt (row : List String) (n j : Nat) (h : j < row.length) :
    (padRow row n)[j]? = row[j]? :=
  List.getElem?_append_left h

theorem padRow_length (row : List String) (n : Nat) :
    (padRow row n).length = max row.length n := by
  simp only [padRow, List.length_append, List.length_replicate]
  omega

theorem writeSpan_getElem?_lt (row : List String) (start : Nat) (vals : List String) (j : Nat)
    (hj : j < row.length) (h : j < start) :
    (writeSpan row start vals)[j]? = row[j]? := by
  unfold writeSpan
  rw [setCells_getElem?_lt _ _ _ _ h, padRow_getElem?_lt _ _ _ hj]

theorem writeSpan_getElem?_ge (row : List String) (start : Nat) (vals : List String) (j : Nat)
    (hj : j < row.length) (h : start + vals.length ≤ j) :
    (writeSpan row start vals)[j]? = row[j]? := by
  unfold writeSpan
  rw [setCells_getElem?_ge _ _ _ _ h, padRow_getElem?_lt _ _ _ hj]

theorem writeSpan_getElem?_in (row : List String) (start : Nat) (vals : List String) (k : Nat)
    (hk : k < vals.length) :
    (writeSpan row start vals)[start + k]? = vals[k]? := by
  unfold writeSpan
  exact setCells_getElem?_in _ _ _ _ hk (by rw [padRow_length]; omega)

theorem rowOutputValues_length (lookup : String → Option Item) (d : Option String) :
    (rowOutputValues lookup d).length = 8 := by
  cases d with
  | none => simp [rowOutputValues]
  | some doi =>
    cases h : lookup doi.toLower with
    | none => simp [rowOutputValues, h]
    | some item =>
      simp only [rowOutputValues, h]
      split <;> simp [metaValues]

/-- C7: frame property of the table mutation.  Every per-row write is of
the 8-value span produced by `rowOutputValues`; `writeSpan` leaves every
pre-existing column outside `[start, start + vals.length)` exactly as it
was and writes exactly `vals` inside the span; the header mutation
`setHeader` likewise leaves the columns before the configured output
start index unchanged. -/
theorem engine_frame_property :
    (∀ (lookup : String → Option Item) (d : Option String),
      (rowOutputValues lookup d).length = 8) ∧
    (∀ (row : List String) (start : Nat) (vals : List String) (j : Nat),
      j < row.length → (j < start ∨ start + vals.length ≤ j) →
      (writeSpan row start vals)[j]? = row[j]?) ∧
    (∀ (row : List String) (start : Nat) (vals : List String) (k : Nat),
      k < vals.length → (writeSpan row start vals)[start + k]? = vals[k]?) ∧
    (∀ (header : List String) (outIdx j : Nat),
      j < header.length → j < outIdx →
      (setHeader header outIdx)[j]? = header[j]?) := by
  refine ⟨rowOutputValues_length, fun row start vals j hj h => ?_,
    writeSpan_getElem?_in, fun header outIdx j hj h => ?_⟩
  · rcases h with h | h
    · exact writeSpan_getElem?_lt _ _ _ _ hj h
    · exact writeSpan_getElem?_ge _ _ _ _ hj h
  · exact writeSpan_getElem?_lt _ _ _ _ hj h

/-- C7 witness: concrete instances discharging the hypotheses of
`engine_frame_property`. -/
theorem engine_frame_property_witness :
    ((rowOutputValues (fun _ => none) (some "10.1/a")).length = 8) ∧
    ((0 : Nat) < 3 ∧ ((0 : Nat) < 1 ∨ 1 + 2 ≤ 0) ∧
      (writeSpan ["a", "b", "c"] 1 ["u", "v"])[0]? = ["a", "b", "c"][0]?) ∧
    ((1 : Nat) < 2 ∧ (writeSpan ["a", "b", "c"] 1 ["u", "v"])[1 + 1]? = ["u", "v"][1]?) ∧
    ((0 : Nat) < 1 ∧ (0 : Nat) < 4 ∧ (setHeader ["a"] 4)[0]? = ["a"][0]?) :=
  ⟨engine_frame_property.1 (fun _ => none) (some "10.1/a"),
   ⟨by decide, Or.inl (by decide),
    engine_frame_property.2.1 ["a", "b", "c"] 1 ["u", "v"] 0 (by decide) (Or.inl (by decide))⟩,
   ⟨by decide, engine_frame_property.2.2.1 ["a", "b", "c"] 1 ["u", "v"] 1 (by decide)⟩,
   ⟨by decide, by decide, engine_frame_property.2.2.2 ["a"] 4 0 (by decide) (by decide)⟩⟩

/-- C4 counterexample: for a present identifier that is NOT found in the
fetcher's result lookup (here: an empty result set), the orchestrator
writes an all-empty record whose identifier column is blank — it does
not fall back to the raw requested identifier "10.1/bad" as the claim
states (source lines 283-290: `output_values` stays `[''] * 8` when
`metadata_map.get` returns nothing). -/
theorem lookup_miss_identifier_blank_cx :
    rowOutputValues (mkLookup []) (some "10.1/bad") = ["", "", "", "", "", "", "", ""] ∧
    (rowOutputValues (mkLookup []) (some "10.1/bad"))[0]? ≠ some "10.1/bad" := by
  constructor <;> decide

/-- C4 amended: a position whose identifier is present but not found in
the lookup gets an all-empty record *including* the identifier column;
the raw-identifier fallback applies only when a matched item exists but
its parsed DOI field is empty. -/
theorem lookup_miss_row_all_blank :
    (∀ (lookup : String → Option Item) (doi : String), lookup doi.toLower = none →
      rowOutputValues lookup (some doi) = List.replicate 8 "") ∧
    (∀ (lookup : String → Option Item) (doi : String) (item : Item),
      lookup doi.toLower = some item → (parse_metadata item).DOI = "" →
      (rowOutputValues lookup (some doi))[0]? = some doi) := by
  constructor
  · intro lookup doi h
    simp [rowOutputValues, h]
  · intro lookup doi item h hD
    simp [rowOutputValues, h, hD, metaValues]

/-- C4 witness: concrete instances discharging the hypotheses of
`lookup_miss_row_all_blank`. -/
theorem lookup_miss_row_all_blank_witness :
    ((mkLookup [] "10.1/x".toLower = none) ∧
      rowOutputValues (mkLookup []) (some "10.1/x") = List.replicate 8 "") ∧
    (((fun _ => some (⟨"", [], [], [], [], "", "", ""⟩ : Item)) "10.1/x".toLower
        = some (⟨"", [], [], [], [], "", "", ""⟩ : Item)) ∧
      ((parse_metadata (⟨"", [], [], [], [], "", "", ""⟩ : Item)).DOI = "") ∧
      (rowOutputValues (fun _ => some (⟨"", [], [], [], [], "", "", ""⟩ : Item))
        (some "10.1/x"))[0]? = some "10.1/x") :=
  ⟨⟨by decide, lookup_miss_row_all_blank.1 (mkLookup []) "10.1/x" (by decide)⟩,
   ⟨rfl, by decide,
    lookup_miss_row_all_blank.2 (fun _ => some (⟨"", [], [], [], [], "", "", ""⟩ : Item)) "10.1/x"
      (⟨"", [], [], [], [], "", "", ""⟩ : Item) rfl (by decide)⟩⟩

theorem gmb_eq (oracle : Oracle) (l : List String) :
    get_metadata_in_batch oracle l =
      if l.filter (· ≠ "") = [] then ⟨[], [], [], []⟩
      else fetchGo oracle (l.filter (· ≠ "")) 0 := rfl

theorem gmb_all_ne (oracle : Oracle) (l : List String)
    (h : ∀ d ∈ l, d ≠ "") (hne : l ≠ []) :
    get_metadata_in_batch oracle l = fetchGo oracle l 0 := by
  rw [gmb_eq]
  have hf : l.filter (· ≠ "") = l := List.filter_eq_self.mpr (by simpa using h)
  rw [hf, if_neg hne]

theorem fetchGo_exhausted (oracle : Oracle) (v : List String) (a : Nat) (h : 3 ≤ a) :
    fetchGo oracle v a = ⟨[], [], [], []⟩ := by
  rw [fetchGo.eq_def, if_pos h]

theorem fetchGo_netExn (oracle : Oracle) (v : List String) (a : Nat) (h : ¬ 3 ≤ a)
    (ho : oracle v a = .netExn) :
    fetchGo oracle v a =
      ⟨(fetchGo oracle v (a + 1)).items, (fetchGo oracle v (a + 1)).log,
       v :: (fetchGo oracle v (a + 1)).calls,
       (if a < 2 then [2] else []) ++ (fetchGo oracle v (a + 1)).sleeps⟩ := by
  rw [fetchGo.eq_def, if_neg h, ho]
  rfl

theorem fetchGo_backoff (oracle : Oracle) (v : List String) (a : Nat) (h : ¬ 3 ≤ a)
    (code : Nat) (items : List Item) (hc : code = 429 ∨ code = 503)
    (ho : oracle v a = .resp code items) :
    fetchGo oracle v a =
      ⟨(fetchGo oracle v (a + 1)).items, (fetchGo oracle v (a + 1)).log,
       v :: (fetchGo oracle v (a + 1)).calls,
       10 :: (fetchGo oracle v (a + 1)).sleeps⟩ := by
  rw [fetchGo.eq_def, if_neg h, ho]
  simp only [Outcome.isNetExn, Outcome.status, Bool.false_eq_true, if_false]
  rw [if_pos hc]

theorem fetchGo_ok (oracle : Oracle) (v : List String) (a : Nat) (h : ¬ 3 ≤ a)
    (code : Nat) (items : List Item) (hc : code < 400)
    (ho : oracle v a = .resp code items) :
    fetchGo oracle v a = ⟨items, [], [v], []⟩ := by
  rw [fetchGo.eq_def, if_neg h, ho]
  simp only [Outcome.isNetExn, Outcome.status, Outcome.body, Bool.false_eq_true, if_false]
  rw [if_neg (by omega), if_neg (by omega)]

theorem fetchGo_hard_error (oracle : Oracle) (v : List String) (a : Nat) (h : ¬ 3 ≤ a)
    (code : Nat) (items : List Item) (hc : 400 ≤ code) (hc4 : code ≠ 400)
    (hc29 : code ≠ 429) (hc53 : code ≠ 503)
    (ho : oracle v a = .resp code items) :
    fetchGo oracle v a = ⟨[], [], [v], []⟩ := by
  rw [fetchGo.eq_def, if_neg h, ho]
  simp only [Outcome.isNetExn, Outcome.status, Bool.false_eq_true, if_false]
  rw [if_neg (by omega), if_pos hc, if_neg hc4]

theorem fetchGo_400_single (oracle : Oracle) (d : String) (a : Nat) (h : ¬ 3 ≤ a)
    (items : List Item) (ho : oracle [d] a = .resp 400 items) :
    fetchGo oracle [d] a = ⟨[], [d], [[d]], []⟩ := by
  rw [fetchGo.eq_def, if_neg h, ho]
  simp only [Outcome.isNetExn, Outcome.status, Bool.false_eq_true, if_false]
  norm_num

theorem fetchGo_400_split (oracle : Oracle) (v : List String) (a : Nat)
    (h : ¬ 3 ≤ a) (hlen : 1 < v.length) (items : List Item)
    (ho : oracle v a = .resp 400 items) :
    fetchGo oracle v a =
      ⟨(get_metadata_in_batch oracle (v.take (v.length / 2))).items
         ++ (get_metadata_in_batch oracle (v.drop (v.length / 2))).items,
       (get_metadata_in_batch oracle (v.take (v.length / 2))).log
         ++ (get_metadata_in_batch oracle (v.drop (v.length / 2))).log,
       v :: ((get_metadata_in_batch oracle (v.take (v.length / 2))).calls
           ++ (get_metadata_in_batch oracle (v.drop (v.length / 2))).calls),
       (get_metadata_in_batch oracle (v.take (v.length / 2))).sleeps
         ++ (get_metadata_in_batch oracle (v.drop (v.length / 2))).sleeps⟩ := by
  have h1 : ¬ ((400 : Nat) = 429 ∨ (400 : Nat) = 503) := by omega
  have h3 : ¬ v.length = 1 := by omega
  rw [fetchGo.eq_def, if_neg h, ho]
  simp only [Outcome.isNetExn, Outcome.status, Bool.false_eq_true, if_false,
    if_neg h1, if_pos (le_refl (400 : Nat)), if_pos (rfl : (400 : Nat) = 400), if_true,
    if_neg h3, dif_pos hlen, gmb_eq]


theorem oneBad_fetchGo (bad : String) :
    ∀ (n : Nat) (v : List String), v.length ≤ n → (∀ d ∈ v, d ≠ "") →
    v.count bad = 1 →
    (fetchGo (oracleOneBad bad) v 0).items = (v.filter (· ≠ bad)).map mkItem ∧
    (fetchGo (oracleOneBad bad) v 0).log = [bad] ∧
    (fetchGo (oracleOneBad bad) v 0).sleeps = [] := by
  intro n
  induction n with
  | zero =>
    intro v hn _ hcount
    have : v = [] := List.eq_nil_of_length_eq_zero (by omega)
    subst this
    simp at hcount
  | succ m ih =>
    intro v hn hne hcount
    have hmem : bad ∈ v := List.count_pos_iff.mp (by omega)
    have hnev : v ≠ [] := by rintro rfl; simp at hmem
    have ho : oracleOneBad bad v 0 = .resp 400 [] := by
      simp [oracleOneBad, hmem]
    rcases Nat.lt_or_ge v.length 2 with hlen | hlen
    · -- singleton
      have hlen1 : v.length = 1 := by
        rcases Nat.eq_zero_or_pos v.length with h0 | h0
        · exact absurd (List.eq_nil_of_length_eq_zero h0) hnev
        · omega
      rcases List.length_eq_one.mp hlen1 with ⟨d, rfl⟩
      have : bad = d := List.mem_singleton.mp hmem
      subst this
      rw [fetchGo_400_single _ _ _ (by omega) _ ho]
      refine ⟨?_, rfl, rfl⟩
      simp
    · -- split
      have hgt : 1 < v.length := hlen
      rw [fetchGo_400_split _ _ _ (by omega) hgt _ ho]
      set t := v.take (v.length / 2) with ht
      set dr := v.drop (v.length / 2) with hdr
      have htd : t ++ dr = v := List.take_append_drop _ v
      have htne : t ≠ [] := by
        have : t.length = min (v.length / 2) v.length := by rw [ht, List.length_take]
        intro hteq
        rw [hteq] at this
        simp at this
        omega
      have hdrne : dr ≠ [] := by
        have : dr.length = v.length - v.length / 2 := by rw [hdr, List.length_drop]
        intro hdeq
        rw [hdeq] at this
        simp at this
        omega
      have htlen : t.length < v.length := by
        rw [ht, List.length_take]; omega
      have hdrlen : dr.length < v.length := by
        rw [hdr, List.length_drop]; omega
      have htne' : ∀ d ∈ t, d ≠ "" := fun d hd => hne d (List.mem_of_mem_take hd)
      have hdrne' : ∀ d ∈ dr, d ≠ "" := fun d hd => hne d (List.mem_of_mem_drop hd)
      have hcount2 : t.count bad + dr.count bad = 1 := by
        rw [← List.count_append, htd]; exact hcount
      have hgmt : get_metadata_in_batch (oracleOneBad bad) t = fetchGo (oracleOneBad bad) t 0 :=
        gmb_all_ne _ _ htne' htne
      have hgmd : get_metadata_in_batch (oracleOneBad bad) dr = fetchGo (oracleOneBad bad) dr 0 :=
        gmb_all_ne _ _ hdrne' hdrne
      rcases Nat.eq_zero_or_pos (t.count bad) with hct | hct
      · -- bad in dr
        have hcd : dr.count bad = 1 := by omega
        have hbadt : bad ∉ t := List.count_eq_zero.mp hct
        have hot : oracleOneBad bad t 0 = .resp 200 (t.map mkItem) := by
          simp [oracleOneBad, hbadt]
        have hfix : fetchGo (oracleOneBad bad) t 0 = ⟨t.map mkItem, [], [t], []⟩ :=
          fetchGo_ok _ _ _ (by omega) 200 _ (by omega) hot
        have hrec := ih dr (by omega) hdrne' hcd
        have hft : t.filter (· ≠ bad) = t := by
          rw [List.filter_eq_self]
          intro a ha
          have hab : a ≠ bad := fun h => hbadt (h ▸ ha)
          simpa using hab
        constructor
        · simp only [hgmt, hgmd, hfix, hrec.1]
          rw [← htd, List.filter_append, hft, List.map_append]
        · constructor
          · simp only [hgmt, hgmd, hfix, hrec.2.1]
            rfl
          · simp only [hgmt, hgmd, hfix, hrec.2.2]
            rfl
      · -- bad in t
        have hct1 : t.count bad = 1 := by omega
        have hcd : dr.count bad = 0 := by omega
        have hbadd : bad ∉ dr := List.count_eq_zero.mp hcd
        have hod : oracleOneBad bad dr 0 = .resp 200 (dr.map mkItem) := by
          simp [oracleOneBad, hbadd]
        have hfix : fetchGo (oracleOneBad bad) dr 0 = ⟨dr.map mkItem, [], [dr], []⟩ :=
          fetchGo_ok _ _ _ (by omega) 200 _ (by omega) hod
        have hrec := ih t (by omega) htne' hct1
        have hfd : dr.filter (· ≠ bad) = dr := by
          rw [List.filter_eq_self]
          intro a ha
          have hab : a ≠ bad := fun h => hbadd (h ▸ ha)
          simpa using hab
        constructor
        · simp only [hgmt, hgmd, hfix, hrec.1]
          rw [← htd, List.filter_append, hfd, List.map_append]
        · constructor
          · simp only [hgmt, hgmd, hfix, hrec.2.1]
            rfl
          · simp only [hgmt, hgmd, hfix, hrec.2.2]
            rfl

theorem length_filter_ne_count (v : List String) (bad : String) :
    (v.filter (· ≠ bad)).length = v.length - v.count bad := by
  induction v with
  | nil => rfl
  | cons a t ih =>
    have hcle := List.count_le_length bad t
    rw [List.filter_cons, List.count_cons, List.length_cons]
    by_cases h : a = bad
    · rw [if_neg (by simp [h]), if_pos (by simp [h])]
      omega
    · rw [if_pos (by simp [h]), if_neg (by simp [h])]
      simp only [List.length_cons]
      omega

theorem allBad_fetchGo :
    ∀ (n : Nat) (v : List String), v.length ≤ n → (∀ d ∈ v, d ≠ "") → v ≠ [] →
    (fetchGo (fun _ _ => .resp 400 []) v 0).items = [] ∧
    (fetchGo (fun _ _ => .resp 400 []) v 0).log = v ∧
    (fetchGo (fun _ _ => .resp 400 []) v 0).sleeps = [] := by
  intro n
  induction n with
  | zero =>
    intro v hn _ hnev
    exact absurd (List.eq_nil_of_length_eq_zero (by omega)) hnev
  | succ m ih =>
    intro v hn hne hnev
    rcases Nat.lt_or_ge v.length 2 with hlen | hlen
    · have hlen1 : v.length = 1 := by
        rcases Nat.eq_zero_or_pos v.length with h0 | h0
        · exact absurd (List.eq_nil_of_length_eq_zero h0) hnev
        · omega
      rcases List.length_eq_one.mp hlen1 with ⟨d, rfl⟩
      rw [fetchGo_400_single _ _ _ (by omega) _ rfl]
      exact ⟨rfl, rfl, rfl⟩
    · rw [fetchGo_400_split _ _ _ (by omega) hlen _ rfl]
      set t := v.take (v.length / 2) with ht
      set dr := v.drop (v.length / 2) with hdr
      have htd : t ++ dr = v := List.take_append_drop _ v
      have htlen : t.length < v.length := by rw [ht, List.length_take]; omega
      have hdrlen : dr.length < v.length := by rw [hdr, List.length_drop]; omega
      have htne : t ≠ [] := by
        have hl : t.length = min (v.length / 2) v.length := by rw [ht, List.length_take]
        intro hteq
        rw [hteq] at hl
        simp at hl
        omega
      have hdrne : dr ≠ [] := by
        have hl : dr.length = v.length - v.length / 2 := by rw [hdr, List.length_drop]
        intro hdeq
        rw [hdeq] at hl
        simp at hl
        omega
      have htne' : ∀ d ∈ t, d ≠ "" := fun d hd => hne d (List.mem_of_mem_take hd)
      have hdrne' : ∀ d ∈ dr, d ≠ "" := fun d hd => hne d (List.mem_of_mem_drop hd)
      have hgmt : get_metadata_in_batch (fun _ _ => .resp 400 []) t
          = fetchGo (fun _ _ => .resp 400 []) t 0 := gmb_all_ne _ _ htne' htne
      have hgmd : get_metadata_in_batch (fun _ _ => .resp 400 []) dr
          = fetchGo (fun _ _ => .resp 400 []) dr 0 := gmb_all_ne _ _ hdrne' hdrne
      have hrt := ih t (by omega) htne' htne
      have hrd := ih dr (by omega) hdrne' hdrne
      refine ⟨?_, ?_, ?_⟩
      · simp only [hgmt, hgmd, hrt.1, hrd.1]
        rfl
      · simp only [hgmt, hgmd, hrt.2.1, hrd.2.1]
        exact htd
      · simp only [hgmt, hgmd, hrt.2.2, hrd.2.2]
        rfl

theorem fetchGo_backoff_exhaust (code : Nat) (items : List Item)
    (hc : code = 429 ∨ code = 503) (v : List String) :
    fetchGo (fun _ _ => .resp code items) v 0 = ⟨[], [], [v, v, v], [10, 10, 10]⟩ := by
  rw [fetchGo_backoff _ _ 0 (by omega) code items hc rfl,
      fetchGo_backoff _ _ 1 (by omega) code items hc rfl,
      fetchGo_backoff _ _ 2 (by omega) code items hc rfl,
      fetchGo_exhausted _ _ 3 (by omega)]

theorem fetchGo_netExn_exhaust (v : List String) :
    fetchGo (fun _ _ => .netExn) v 0 = ⟨[], [], [v, v, v], [2, 2]⟩ := by
  rw [fetchGo_netExn _ _ 0 (by omega) rfl,
      fetchGo_netExn _ _ 1 (by omega) rfl,
      fetchGo_netExn _ _ 2 (by omega) rfl,
      fetchGo_exhausted _ _ 3 (by omega)]
  norm_num

/-- C3: bisection on a 400 response.  A single-identifier batch is
logged to the malformed log and the call returns the empty item list; a
batch of more than one identifier is split at `len / 2`, the fetcher
recurses on each half independently, and the results are concatenated.
Consequently, for a batch with exactly one malformed identifier among
otherwise-valid ones (the remote rejects exactly the sub-batches
containing it), exactly that identifier is logged and all the others
resolve, regardless of its position. -/
theorem bisection_isolates_malformed :
    (∀ (oracle : Oracle) (d : String) (items : List Item), d ≠ "" →
      oracle [d] 0 = .resp 400 items →
      get_metadata_in_batch oracle [d] = ⟨[], [d], [[d]], []⟩) ∧
    (∀ (oracle : Oracle) (v : List String) (a : Nat) (items : List Item),
      ¬ 3 ≤ a → 1 < v.length → oracle v a = .resp 400 items →
      fetchGo oracle v a =
        ⟨(get_metadata_in_batch oracle (v.take (v.length / 2))).items
           ++ (get_metadata_in_batch oracle (v.drop (v.length / 2))).items,
         (get_metadata_in_batch oracle (v.take (v.length / 2))).log
           ++ (get_metadata_in_batch oracle (v.drop (v.length / 2))).log,
         v :: ((get_metadata_in_batch oracle (v.take (v.length / 2))).calls
             ++ (get_metadata_in_batch oracle (v.drop (v.length / 2))).calls),
         (get_metadata_in_batch oracle (v.take (v.length / 2))).sleeps
           ++ (get_metadata_in_batch oracle (v.drop (v.length / 2))).sleeps⟩) ∧
    (∀ (bad : String) (v : List String), (∀ d ∈ v, d ≠ "") → v.count bad = 1 →
      (get_metadata_in_batch (oracleOneBad bad) v).items
          = (v.filter (· ≠ bad)).map mkItem ∧
      (get_metadata_in_batch (oracleOneBad bad) v).items.length = v.length - 1 ∧
      (get_metadata_in_batch (oracleOneBad bad) v).log = [bad]) := by
  refine ⟨?_, fun oracle v a items h1 h2 h3 => fetchGo_400_split oracle v a h1 h2 items h3, ?_⟩
  · intro oracle d items hd ho
    rw [gmb_all_ne _ _ (by simpa using hd) (by simp)]
    exact fetchGo_400_single _ _ _ (by omega) _ ho
  · intro bad v hne hcount
    have hnev : v ≠ [] := by
      rintro rfl
      simp at hcount
    rw [gmb_all_ne _ _ hne hnev]
    have h := oneBad_fetchGo bad v.length v (le_refl _) hne hcount
    refine ⟨h.1, ?_, h.2.1⟩
    rw [h.1, List.length_map, length_filter_ne_count, hcount]

/-- C3 witness: concrete instances discharging the hypotheses of
`bisection_isolates_malformed`, including the spec scenario batch
`["10.1/a", "10.1/bad", "10.1/c"]`. -/
theorem bisection_isolates_malformed_witness :
    (("10.1/bad" : String) ≠ "" ∧
      (fun (_ : List String) (_ : Nat) => Outcome.resp 400 ([] : List Item)) ["10.1/bad"] 0
        = .resp 400 [] ∧
      get_metadata_in_batch (fun _ _ => .resp 400 []) ["10.1/bad"]
        = ⟨[], ["10.1/bad"], [["10.1/bad"]], []⟩) ∧
    (¬ (3 : Nat) ≤ 0 ∧ 1 < (["a", "b"] : List String).length ∧
      fetchGo (fun _ _ => .resp 400 []) ["a", "b"] 0 =
        ⟨(get_metadata_in_batch (fun _ _ => .resp 400 [])
            ((["a", "b"] : List String).take ((["a", "b"] : List String).length / 2))).items
           ++ (get_metadata_in_batch (fun _ _ => .resp 400 [])
            ((["a", "b"] : List String).drop ((["a", "b"] : List String).length / 2))).items,
         (get_metadata_in_batch (fun _ _ => .resp 400 [])
            ((["a", "b"] : List String).take ((["a", "b"] : List String).length / 2))).log
           ++ (get_metadata_in_batch (fun _ _ => .resp 400 [])
            ((["a", "b"] : List String).drop ((["a", "b"] : List String).length / 2))).log,
         (["a", "b"] : List String) ::
           ((get_metadata_in_batch (fun _ _ => .resp 400 [])
              ((["a", "b"] : List String).take ((["a", "b"] : List String).length / 2))).calls
             ++ (get_metadata_in_batch (fun _ _ => .resp 400 [])
              ((["a", "b"] : List String).drop ((["a", "b"] : List String).length / 2))).calls),
         (get_metadata_in_batch (fun _ _ => .resp 400 [])
            ((["a", "b"] : List String).take ((["a", "b"] : List String).length / 2))).sleeps
           ++ (get_metadata_in_batch (fun _ _ => .resp 400 [])
            ((["a", "b"] : List String).drop ((["a", "b"] : List String).length / 2))).sleeps⟩) ∧
    ((∀ d ∈ (["10.1/a", "10.1/bad", "10.1/c"] : List String), d ≠ "") ∧
      (["10.1/a", "10.1/bad", "10.1/c"] : List String).count "10.1/bad" = 1 ∧
      (get_metadata_in_batch (oracleOneBad "10.1/bad")
          ["10.1/a", "10.1/bad", "10.1/c"]).items
        = ((["10.1/a", "10.1/bad", "10.1/c"] : List String).filter
            (· ≠ "10.1/bad")).map mkItem ∧
      (get_metadata_in_batch (oracleOneBad "10.1/bad")
          ["10.1/a", "10.1/bad", "10.1/c"]).items.length
        = (["10.1/a", "10.1/bad", "10.1/c"] : List String).length - 1 ∧
      (get_metadata_in_batch (oracleOneBad "10.1/bad")
          ["10.1/a", "10.1/bad", "10.1/c"]).log = ["10.1/bad"]) :=
  ⟨⟨by decide, rfl,
    bisection_isolates_malformed.1 (fun _ _ => .resp 400 []) "10.1/bad" [] (by decide) rfl⟩,
   ⟨by decide, by decide,
    bisection_isolates_malformed.2.1 (fun _ _ => .resp 400 []) ["a", "b"] 0 []
      (by decide) (by decide) rfl⟩,
   by
    have h := bisection_isolates_malformed.2.2 "10.1/bad"
      ["10.1/a", "10.1/bad", "10.1/c"] (by decide) (by decide)
    exact ⟨by decide, by decide, h.1, h.2.1, h.2.2⟩⟩

/-- C6: transient-failure retry.  A 429/503 response sleeps a fixed 10
seconds and retries the same batch; a network exception sleeps 2 seconds
(except after the final attempt) and retries; both share the
`max_retries = 3` attempt ceiling, and exhausting it abandons the batch
with the empty item list instead of raising. -/
theorem transient_retry_policy :
    (∀ (oracle : Oracle) (v : List String) (a code : Nat) (items : List Item),
      ¬ 3 ≤ a → (code = 429 ∨ code = 503) → oracle v a = .resp code items →
      fetchGo oracle v a =
        ⟨(fetchGo oracle v (a + 1)).items, (fetchGo oracle v (a + 1)).log,
         v :: (fetchGo oracle v (a + 1)).calls, 10 :: (fetchGo oracle v (a + 1)).sleeps⟩) ∧
    (∀ (oracle : Oracle) (v : List String) (a : Nat),
      ¬ 3 ≤ a → oracle v a = .netExn →
      fetchGo oracle v a =
        ⟨(fetchGo oracle v (a + 1)).items, (fetchGo oracle v (a + 1)).log,
         v :: (fetchGo oracle v (a + 1)).calls,
         (if a < 2 then [2] else []) ++ (fetchGo oracle v (a + 1)).sleeps⟩) ∧
    (∀ (code : Nat) (items : List Item) (dois : List String),
      (code = 429 ∨ code = 503) → dois.filter (· ≠ "") ≠ [] →
      get_metadata_in_batch (fun _ _ => .resp code items) dois =
        ⟨[], [], [dois.filter (· ≠ ""), dois.filter (· ≠ ""), dois.filter (· ≠ "")],
         [10, 10, 10]⟩) ∧
    (∀ dois : List String, dois.filter (· ≠ "") ≠ [] →
      get_metadata_in_batch (fun _ _ => .netExn) dois =
        ⟨[], [], [dois.filter (· ≠ ""), dois.filter (· ≠ ""), dois.filter (· ≠ "")],
         [2, 2]⟩) := by
  refine ⟨fun oracle v a code items h hc ho => fetchGo_backoff oracle v a h code items hc ho,
    fetchGo_netExn, ?_, ?_⟩
  · intro code items dois hc hne
    rw [gmb_eq, if_neg hne, fetchGo_backoff_exhaust code items hc]
  · intro dois hne
    rw [gmb_eq, if_neg hne, fetchGo_netExn_exhaust]

/-- C6 witness: concrete instances discharging the hypotheses of
`transient_retry_policy`. -/
theorem transient_retry_policy_witness :
    (¬ (3 : Nat) ≤ 0 ∧ ((429 : Nat) = 429 ∨ (429 : Nat) = 503) ∧
      fetchGo (fun _ _ => .resp 429 []) ["a"] 0 =
        ⟨(fetchGo (fun _ _ => .resp 429 []) ["a"] 1).items,
         (fetchGo (fun _ _ => .resp 429 []) ["a"] 1).log,
         ["a"] :: (fetchGo (fun _ _ => .resp 429 []) ["a"] 1).calls,
         10 :: (fetchGo (fun _ _ => .resp 429 []) ["a"] 1).sleeps⟩) ∧
    (¬ (3 : Nat) ≤ 1 ∧
      fetchGo (fun _ _ => .netExn) ["a"] 1 =
        ⟨(fetchGo (fun _ _ => .netExn) ["a"] 2).items,
         (fetchGo (fun _ _ => .netExn) ["a"] 2).log,
         ["a"] :: (fetchGo (fun _ _ => .netExn) ["a"] 2).calls,
         (if (1 : Nat) < 2 then [2] else []) ++ (fetchGo (fun _ _ => .netExn) ["a"] 2).sleeps⟩) ∧
    ((["", "a"] : List String).filter (· ≠ "") ≠ [] ∧
      get_metadata_in_batch (fun _ _ => .resp 503 []) ["", "a"] =
        ⟨[], [], [(["", "a"] : List String).filter (· ≠ ""),
                  (["", "a"] : List String).filter (· ≠ ""),
                  (["", "a"] : List String).filter (· ≠ "")], [10, 10, 10]⟩) ∧
    ((["b"] : List String).filter (· ≠ "") ≠ [] ∧
      get_metadata_in_batch (fun _ _ => .netExn) ["b"] =
        ⟨[], [], [(["b"] : List String).filter (· ≠ ""),
                  (["b"] : List String).filter (· ≠ ""),
                  (["b"] : List String).filter (· ≠ "")], [2, 2]⟩) :=
  ⟨⟨by decide, Or.inl rfl,
    transient_retry_policy.1 (fun _ _ => .resp 429 []) ["a"] 0 429 [] (by decide) (Or.inl rfl) rfl⟩,
   ⟨by decide,
    transient_retry_policy.2.1 (fun _ _ => .netExn) ["a"] 1 (by decide) rfl⟩,
   ⟨by decide,
    transient_retry_policy.2.2.1 503 [] ["", "a"] (Or.inr rfl) (by decide)⟩,
   ⟨by decide,
    transient_retry_policy.2.2.2 ["b"] (by decide)⟩⟩

/-- C10: the Batch Fetcher is total over its modelled failure space.
If filtering absent/empty identifiers leaves nothing the call returns the
empty result with no remote call and no log write; and for every constant
remote outcome — success, 400, any other HTTP error code, 429/503, or a
network exception — `get_metadata_in_batch` returns a plain result list
(never propagating a failure). -/
theorem fetcher_totality :
    (∀ (oracle : Oracle) (dois : List String), dois.filter (· ≠ "") = [] →
      get_metadata_in_batch oracle dois = ⟨[], [], [], []⟩) ∧
    (∀ (code : Nat) (items : List Item) (dois : List String), code < 400 →
      dois.filter (· ≠ "") ≠ [] →
      get_metadata_in_batch (fun _ _ => .resp code items) dois =
        ⟨items, [], [dois.filter (· ≠ "")], []⟩) ∧
    (∀ (code : Nat) (items : List Item) (dois : List String),
      400 ≤ code → code ≠ 400 → code ≠ 429 → code ≠ 503 →
      dois.filter (· ≠ "") ≠ [] →
      get_metadata_in_batch (fun _ _ => .resp code items) dois =
        ⟨[], [], [dois.filter (· ≠ "")], []⟩) ∧
    (∀ dois : List String, dois.filter (· ≠ "") ≠ [] →
      (get_metadata_in_batch (fun _ _ => .resp 400 []) dois).items = [] ∧
      (get_metadata_in_batch (fun _ _ => .resp 400 []) dois).log = dois.filter (· ≠ "")) ∧
    (∀ (code : Nat) (items : List Item) (dois : List String),
      (code = 429 ∨ code = 503) → dois.filter (· ≠ "") ≠ [] →
      get_metadata_in_batch (fun _ _ => .resp code items) dois =
        ⟨[], [], [dois.filter (· ≠ ""), dois.filter (· ≠ ""), dois.filter (· ≠ "")],
         [10, 10, 10]⟩) ∧
    (∀ dois : List String, dois.filter (· ≠ "") ≠ [] →
      get_metadata_in_batch (fun _ _ => .netExn) dois =
        ⟨[], [], [dois.filter (· ≠ ""), dois.filter (· ≠ ""), dois.filter (· ≠ "")],
         [2, 2]⟩) := by
  refine ⟨?_, ?_, ?_, ?_, ?_, ?_⟩
  · intro oracle dois h
    rw [gmb_eq, if_pos h]
  · intro code items dois hc hne
    rw [gmb_eq, if_neg hne]
    exact fetchGo_ok _ _ _ (by omega) code items hc rfl
  · intro code items dois hc h4 h29 h53 hne
    rw [gmb_eq, if_neg hne]
    exact fetchGo_hard_error _ _ _ (by omega) code items hc h4 h29 h53 rfl
  · intro dois hne
    have hfne : ∀ d ∈ dois.filter (· ≠ ""), d ≠ "" := by
      intro d hd
      have := List.of_mem_filter hd
      simpa using this
    rw [gmb_eq, if_neg hne]
    have h := allBad_fetchGo (dois.filter (· ≠ "")).length (dois.filter (· ≠ ""))
      (le_refl _) hfne hne
    exact ⟨h.1, h.2.1⟩
  · intro code items dois hc hne
    rw [gmb_eq, if_neg hne, fetchGo_backoff_exhaust code items hc]
  · intro dois hne
    rw [gmb_eq, if_neg hne, fetchGo_netExn_exhaust]

/-- C10 witness: concrete instances discharging the hypotheses of
`fetcher_totality`. -/
theorem fetcher_totality_witness :
    ((["", ""] : List String).filter (· ≠ "") = [] ∧
      get_metadata_in_batch (fun _ _ => .netExn) ["", ""] = ⟨[], [], [], []⟩) ∧
    ((200 : Nat) < 400 ∧ (["a"] : List String).filter (· ≠ "") ≠ [] ∧
      get_metadata_in_batch (fun _ _ => .resp 200 [mkItem "a"]) ["a"] =
        ⟨[mkItem "a"], [], [(["a"] : List String).filter (· ≠ "")], []⟩) ∧
    ((400 : Nat) ≤ 404 ∧ (404 : Nat) ≠ 400 ∧ (404 : Nat) ≠ 429 ∧ (404 : Nat) ≠ 503 ∧
      (["a"] : List String).filter (· ≠ "") ≠ [] ∧
      get_metadata_in_batch (fun _ _ => .resp 404 []) ["a"] =
        ⟨[], [], [(["a"] : List String).filter (· ≠ "")], []⟩) ∧
    ((["a", "b"] : List String).filter (· ≠ "") ≠ [] ∧
      (get_metadata_in_batch (fun _ _ => .resp 400 []) ["a", "b"]).items = [] ∧
      (get_metadata_in_batch (fun _ _ => .resp 400 []) ["a", "b"]).log
        = (["a", "b"] : List String).filter (· ≠ "")) ∧
    (((429 : Nat) = 429 ∨ (429 : Nat) = 503) ∧ (["a"] : List String).filter (· ≠ "") ≠ [] ∧
      get_metadata_in_batch (fun _ _ => .resp 429 []) ["a"] =
        ⟨[], [], [(["a"] : List String).filter (· ≠ ""),
                  (["a"] : List String).filter (· ≠ ""),
                  (["a"] : List String).filter (· ≠ "")], [10, 10, 10]⟩) ∧
    ((["c"] : List String).filter (· ≠ "") ≠ [] ∧
      get_metadata_in_batch (fun _ _ => .netExn) ["c"] =
        ⟨[], [], [(["c"] : List String).filter (· ≠ ""),
                  (["c"] : List String).filter (· ≠ ""),
                  (["c"] : List String).filter (· ≠ "")], [2, 2]⟩) :=
  ⟨⟨by decide, fetcher_totality.1 (fun _ _ => .netExn) ["", ""] (by decide)⟩,
   ⟨by decide, by decide,
    fetcher_totality.2.1 200 [mkItem "a"] ["a"] (by decide) (by decide)⟩,
   ⟨by decide, by decide, by decide, by decide, by decide,
    fetcher_totality.2.2.1 404 [] ["a"] (by decide) (by decide) (by decide) (by decide)
      (by decide)⟩,
   by
    have h := fetcher_totality.2.2.2.1 ["a", "b"] (by decide)
    exact ⟨by decide, h.1, h.2⟩,
   ⟨Or.inl rfl, by decide,
    fetcher_totality.2.2.2.2.1 429 [] ["a"] (Or.inl rfl) (by decide)⟩,
   ⟨by decide, fetcher_totality.2.2.2.2.2 ["c"] (by decide)⟩⟩

theorem runLoop_nil (oracle : Oracle) (wfail : Nat → Bool) (B : Nat) (hdr : List String)
    (outIdx pos bidx : Nat) (st : LoopState) :
    runLoop oracle wfail B hdr outIdx pos [] bidx st = st := by
  rw [runLoop.eq_def]
  simp

theorem runLoop_zeroB (oracle : Oracle) (wfail : Nat → Bool) (B : Nat) (hdr : List String)
    (outIdx pos bidx : Nat) (todo : List (Option String)) (st : LoopState) (hB : B = 0) :
    runLoop oracle wfail B hdr outIdx pos todo bidx st = st := by
  rw [runLoop.eq_def, if_pos hB]

theorem runLoop_stepped (oracle : Oracle) (wfail : Nat → Bool) (B : Nat) (hdr : List String)
    (outIdx pos bidx : Nat) (todo : List (Option String)) (st : LoopState)
    (hB : B ≠ 0) (ht : todo ≠ []) :
    runLoop oracle wfail B hdr outIdx pos todo bidx st =
      runLoop oracle wfail B hdr outIdx (pos + (todo.take B).length) (todo.drop B) (bidx + 1)
        { rows := processSlice outIdx (mkLookup (batchFetch oracle B todo).items) pos
            (todo.take B) st.rows
        , durable := if wfail bidx then st.durable
            else some (hdr, processSlice outIdx (mkLookup (batchFetch oracle B todo).items) pos
              (todo.take B) st.rows)
        , offsets := st.offsets ++ [pos + (todo.take B).length]
        , calls := st.calls ++ (batchFetch oracle B todo).calls
        , log := st.log ++ (batchFetch oracle B todo).log } := by
  rw [runLoop.eq_def]
  rw [if_neg hB, if_neg ht]

theorem batchSlices_nil (B : Nat) : batchSlices B [] = [] := by
  rw [batchSlices.eq_def]
  simp

theorem batchSlices_stepped (B : Nat) (todo : List (Option String)) (hB : B ≠ 0)
    (ht : todo ≠ []) :
    batchSlices B todo = todo.take B :: batchSlices B (todo.drop B) := by
  rw [batchSlices.eq_def]
  rw [if_neg hB, if_neg ht]

theorem drop_length_lt (todo : List (Option String)) (B : Nat) (hB : B ≠ 0) (ht : todo ≠ []) :
    (todo.drop B).length < todo.length := by
  have h := List.length_drop B todo
  have h2 : todo.length ≠ 0 := fun hh => ht (List.eq_nil_of_length_eq_zero hh)
  omega

theorem runLoop_offsets_aux (oracle : Oracle) (wfail : Nat → Bool) (B : Nat)
    (hdr : List String) (outIdx : Nat) :
    ∀ (n : Nat) (todo : List (Option String)), todo.length ≤ n →
    ∀ (pos bidx : Nat) (st : LoopState),
    (runLoop oracle wfail B hdr outIdx pos todo bidx st).offsets
      = st.offsets ++ scanSums pos (batchSlices B todo) := by
  intro n
  induction n with
  | zero =>
    intro todo hn pos bidx st
    have ht : todo = [] := List.eq_nil_of_length_eq_zero (by omega)
    subst ht
    rw [runLoop_nil, batchSlices_nil]
    simp [scanSums]
  | succ m ih =>
    intro todo hn pos bidx st
    by_cases hB : B = 0
    · rw [runLoop_zeroB _ _ _ _ _ _ _ _ _ hB, batchSlices.eq_def, if_pos hB]
      simp [scanSums]
    · by_cases ht : todo = []
      · subst ht
        rw [runLoop_nil, batchSlices_nil]
        simp [scanSums]
      · rw [runLoop_stepped _ _ _ _ _ _ _ _ _ hB ht, batchSlices_stepped _ _ hB ht]
        rw [ih (todo.drop B) (by have := drop_length_lt todo B hB ht; omega)]
        simp [scanSums, List.append_assoc]

/-- The checkpoint offsets recorded by a session of the loop: independent
of the remote outcomes and of which CSV writes fail, they are the running
cumulative slice-length sums. -/
theorem runLoop_offsets (oracle : Oracle) (wfail : Nat → Bool) (B : Nat)
    (hdr : List String) (outIdx : Nat) (todo : List (Option String))
    (pos bidx : Nat) (st : LoopState) :
    (runLoop oracle wfail B hdr outIdx pos todo bidx st).offsets
      = st.offsets ++ scanSums pos (batchSlices B todo) :=
  runLoop_offsets_aux oracle wfail B hdr outIdx todo.length todo (le_refl _) pos bidx st

theorem runLoop_durable_allfail_aux (oracle : Oracle) (B : Nat)
    (hdr : List String) (outIdx : Nat) :
    ∀ (n : Nat) (todo : List (Option String)), todo.length ≤ n →
    ∀ (pos bidx : Nat) (st : LoopState),
    (runLoop oracle (fun _ => true) B hdr outIdx pos todo bidx st).durable = st.durable := by
  intro n
  induction n with
  | zero =>
    intro todo hn pos bidx st
    have ht : todo = [] := List.eq_nil_of_length_eq_zero (by omega)
    subst ht
    rw [runLoop_nil]
  | succ m ih =>
    intro todo hn pos bidx st
    by_cases hB : B = 0
    · rw [runLoop_zeroB _ _ _ _ _ _ _ _ _ hB]
    · by_cases ht : todo = []
      · subst ht
        rw [runLoop_nil]
      · rw [runLoop_stepped _ _ _ _ _ _ _ _ _ hB ht]
        rw [ih (todo.drop B) (by have := drop_length_lt todo B hB ht; omega)]
        simp

/-- A session in which every CSV write fails never touches the durable
file. -/
theorem runLoop_durable_allfail (oracle : Oracle) (B : Nat) (hdr : List String)
    (outIdx : Nat) (todo : List (Option String)) (pos bidx : Nat) (st : LoopState) :
    (runLoop oracle (fun _ => true) B hdr outIdx pos todo bidx st).durable = st.durable :=
  runLoop_durable_allfail_aux oracle B hdr outIdx todo.length todo (le_refl _) pos bidx st

/-- C1 counterexample: a batch whose CSV write fails (`wfail` always
true: `write_csv_safely` raises internally and swallows the exception)
leaves the durable file untouched, yet the loop still records the
checkpoint save `save_progress(..., 1)` for that batch — the write
failure does not prevent the subsequent checkpoint save, contrary to the
claim. -/
theorem checkpoint_saved_despite_failed_write_cx :
    (runLoop (fun _ _ => .resp 200 []) (fun _ => true) 1 ["h"] 0 0 [some "a"] 0
      ⟨[["x"]], none, [], [], []⟩).durable = none ∧
    (runLoop (fun _ _ => .resp 200 []) (fun _ => true) 1 ["h"] 0 0 [some "a"] 0
      ⟨[["x"]], none, [], [], []⟩).offsets = [1] := by
  constructor
  · rw [runLoop_durable_allfail]
  · rw [runLoop_offsets]
    rw [batchSlices_stepped _ _ (by decide) (by decide)]
    norm_num
    rw [batchSlices_nil]
    simp [scanSums]

/-- C1 amended: `write_csv_safely` catches every failure internally:
a failing write never corrupts (never even touches) the previously
durable file, but the failure is not surfaced to `main` — the
orchestrator still calls `save_progress` for that batch, so the
checkpoint offsets of a session are independent of which writes
failed. -/
theorem write_failure_swallowed :
    (∀ (oracle : Oracle) (B : Nat) (hdr : List String) (outIdx pos bidx : Nat)
        (todo : List (Option String)) (st : LoopState),
      (runLoop oracle (fun _ => true) B hdr outIdx pos todo bidx st).durable = st.durable) ∧
    (∀ (oracle : Oracle) (wfail : Nat → Bool) (B : Nat) (hdr : List String)
        (outIdx pos bidx : Nat) (todo : List (Option String)) (st : LoopState),
      (runLoop oracle wfail B hdr outIdx pos todo bidx st).offsets
        = st.offsets ++ scanSums pos (batchSlices B todo)) :=
  ⟨fun oracle B hdr outIdx pos bidx todo st =>
    runLoop_durable_allfail oracle B hdr outIdx todo pos bidx st,
   fun oracle wfail B hdr outIdx pos bidx todo st =>
    runLoop_offsets oracle wfail B hdr outIdx todo pos bidx st⟩

theorem scanSums_getElem? (ss : List (List (Option String))) :
    ∀ (k start : Nat), k < ss.length →
    (scanSums start ss)[k]? = some (start + ((ss.take (k + 1)).map List.length).sum) := by
  induction ss with
  | nil =>
    intro k start hk
    simp at hk
  | cons s ss ih =>
    intro k start hk
    cases k with
    | zero => simp [scanSums]
    | succ k =>
      simp only [scanSums, List.getElem?_cons_succ]
      rw [ih k _ (by simpa using hk)]
      congr 1
      simp only [List.take_succ_cons, List.map_cons, List.sum_cons]
      omega

/-- C5: checkpoint offset correctness.  The offset persisted after
batch k (0-based index k-1 in the session's save trace) equals the
starting offset plus the sum of the lengths of batch slices 1..k. -/
theorem checkpoint_offsets_cumulative (oracle : Oracle) (wfail : Nat → Bool) (B : Nat)
    (hdr : List String) (outIdx start : Nat) (dois : List (Option String))
    (rows : List (List String)) (dur : Option (List String × List (List String)))
    (k : Nat) (hk : k < (batchSlices B (dois.drop start)).length) :
    (runLoop oracle wfail B hdr outIdx start (dois.drop start) 0
        ⟨rows, dur, [], [], []⟩).offsets[k]?
      = some (start + (((batchSlices B (dois.drop start)).take (k + 1)).map
          List.length).sum) := by
  rw [runLoop_offsets]
  simp only [List.nil_append]
  exact scanSums_getElem? _ k start hk

/-- C5 witness: a concrete 2-batch run discharging the hypotheses of
`checkpoint_offsets_cumulative`. -/
theorem checkpoint_offsets_cumulative_witness :
    (1 : Nat) < (batchSlices 2 (([some "a", some "b", some "c"] :
        List (Option String)).drop 0)).length ∧
    (runLoop (fun _ _ => .resp 200 []) (fun _ => false) 2 ["h"] 0 0
        (([some "a", some "b", some "c"] : List (Option String)).drop 0) 0
        ⟨[["x"], ["y"], ["z"]], none, [], [], []⟩).offsets[1]?
      = some (0 + (((batchSlices 2 (([some "a", some "b", some "c"] :
          List (Option String)).drop 0)).take (1 + 1)).map List.length).sum) := by
  have hbs : batchSlices 2 (([some "a", some "b", some "c"] :
      List (Option String)).drop 0) = [[some "a", some "b"], [some "c"]] := by
    rw [List.drop_zero, batchSlices_stepped _ _ (by decide) (by decide)]
    norm_num
    rw [batchSlices_stepped _ _ (by decide) (by decide)]
    norm_num
    rw [batchSlices_nil]
  constructor
  · rw [hbs]
    decide
  · exact checkpoint_offsets_cumulative (fun _ _ => .resp 200 []) (fun _ => false) 2 ["h"] 0 0
      [some "a", some "b", some "c"] [["x"], ["y"], ["z"]] none 1 (by rw [hbs]; decide)

theorem runLoop_rows_congr_aux (oracle : Oracle) (B : Nat) (hdr : List String)
    (outIdx : Nat) :
    ∀ (n : Nat) (todo : List (Option String)), todo.length ≤ n →
    ∀ (pos b1 b2 : Nat) (st1 st2 : LoopState), st1.rows = st2.rows →
    (runLoop oracle (fun _ => false) B hdr outIdx pos todo b1 st1).rows
      = (runLoop oracle (fun _ => false) B hdr outIdx pos todo b2 st2).rows := by
  intro n
  induction n with
  | zero =>
    intro todo hn pos b1 b2 st1 st2 hrows
    have ht : todo = [] := List.eq_nil_of_length_eq_zero (by omega)
    subst ht
    rw [runLoop_nil, runLoop_nil]
    exact hrows
  | succ m ih =>
    intro todo hn pos b1 b2 st1 st2 hrows
    by_cases hB : B = 0
    · rw [runLoop_zeroB _ _ _ _ _ _ _ _ _ hB, runLoop_zeroB _ _ _ _ _ _ _ _ _ hB]
      exact hrows
    · by_cases ht : todo = []
      · subst ht
        rw [runLoop_nil, runLoop_nil]
        exact hrows
      · rw [runLoop_stepped _ _ _ _ _ _ _ _ _ hB ht,
            runLoop_stepped _ _ _ _ _ _ _ _ _ hB ht]
        exact ih (todo.drop B) (by have := drop_length_lt todo B hB ht; omega)
          _ _ _ _ _ (by simp [hrows])

theorem runLoop_durable_inv_aux (oracle : Oracle) (B : Nat) (hdr : List String)
    (outIdx : Nat) :
    ∀ (n : Nat) (todo : List (Option String)), todo.length ≤ n →
    ∀ (pos bidx : Nat) (st : LoopState), st.durable = some (hdr, st.rows) →
    (runLoop oracle (fun _ => false) B hdr outIdx pos todo bidx st).durable
      = some (hdr, (runLoop oracle (fun _ => false) B hdr outIdx pos todo bidx st).rows) := by
  intro n
  induction n with
  | zero =>
    intro todo hn pos bidx st hdur
    have ht : todo = [] := List.eq_nil_of_length_eq_zero (by omega)
    subst ht
    rw [runLoop_nil]
    exact hdur
  | succ m ih =>
    intro todo hn pos bidx st hdur
    by_cases hB : B = 0
    · rw [runLoop_zeroB _ _ _ _ _ _ _ _ _ hB]
      exact hdur
    · by_cases ht : todo = []
      · subst ht
        rw [runLoop_nil]
        exact hdur
      · rw [runLoop_stepped _ _ _ _ _ _ _ _ _ hB ht]
        exact ih (todo.drop B) (by have := drop_length_lt todo B hB ht; omega)
          _ _ _ (by simp)

theorem runLoop_midRun_aux (oracle : Oracle) (B : Nat) (hdr : List String) (outIdx : Nat) :
    ∀ (k pos : Nat) (todo : List (Option String)) (rows : List (List String))
      (bidx : Nat) (dur : Option (List String × List (List String)))
      (offs : List Nat) (cs : List (List String)) (lg : List String),
    (runLoop oracle (fun _ => false) B hdr outIdx pos todo bidx
        ⟨rows, dur, offs, cs, lg⟩).rows
      = (runLoop oracle (fun _ => false) B hdr outIdx
          (midRun oracle B outIdx k (pos, todo, rows)).1
          (midRun oracle B outIdx k (pos, todo, rows)).2.1 0
          ⟨(midRun oracle B outIdx k (pos, todo, rows)).2.2,
           some (hdr, (midRun oracle B outIdx k (pos, todo, rows)).2.2),
           [], [], []⟩).rows := by
  intro k
  induction k with
  | zero =>
    intro pos todo rows bidx dur offs cs lg
    exact runLoop_rows_congr_aux oracle B hdr outIdx todo.length todo (le_refl _)
      pos bidx 0 _ _ rfl
  | succ m ih =>
    intro pos todo rows bidx dur offs cs lg
    by_cases hB : B = 0
    · have hmid : midRun oracle B outIdx (m + 1) (pos, todo, rows) = (pos, todo, rows) := by
        rw [midRun, if_pos hB]
      rw [hmid]
      exact runLoop_rows_congr_aux oracle B hdr outIdx todo.length todo (le_refl _)
        pos bidx 0 _ _ rfl
    · by_cases ht : todo = []
      · have hmid : midRun oracle B outIdx (m + 1) (pos, todo, rows) = (pos, todo, rows) := by
          rw [midRun, if_neg hB, if_pos ht]
        rw [hmid]
        exact runLoop_rows_congr_aux oracle B hdr outIdx todo.length todo (le_refl _)
          pos bidx 0 _ _ rfl
      · have hmid : midRun oracle B outIdx (m + 1) (pos, todo, rows)
            = midRun oracle B outIdx m (pos + (todo.take B).length, todo.drop B,
                processSlice outIdx (mkLookup (batchFetch oracle B todo).items) pos
                  (todo.take B) rows) := by
          rw [midRun, if_neg hB, if_neg ht]
        rw [hmid, runLoop_stepped _ _ _ _ _ _ _ _ _ hB ht]
        exact ih _ _ _ _ _ _ _ _

theorem midRun_drop_aux (oracle : Oracle) (B outIdx : Nat) (dois : List (Option String)) :
    ∀ (k pos : Nat) (todo : List (Option String)) (rows : List (List String)),
    todo = dois.drop pos →
    (midRun oracle B outIdx k (pos, todo, rows)).2.1
      = dois.drop (midRun oracle B outIdx k (pos, todo, rows)).1 := by
  intro k
  induction k with
  | zero =>
    intro pos todo rows h
    exact h
  | succ m ih =>
    intro pos todo rows h
    by_cases hB : B = 0
    · rw [midRun, if_pos hB]
      exact h
    · by_cases ht : todo = []
      · rw [midRun, if_neg hB, if_pos ht]
        exact h
      · rw [midRun, if_neg hB, if_neg ht]
        apply ih
        subst h
        have hlen : (dois.drop pos).length = dois.length - pos := List.length_drop _ _
        have hpos : pos < dois.length := by
          rcases Nat.lt_or_ge pos dois.length with hc | hc
          · exact hc
          · exact absurd (List.drop_eq_nil_of_le hc) ht
        rcases le_or_lt B (dois.drop pos).length with hc | hc
        · have h1 : ((dois.drop pos).take B).length = B := by
            rw [List.length_take]
            omega
          rw [h1, List.drop_drop]
        · have h1 : ((dois.drop pos).take B).length = (dois.drop pos).length := by
            rw [List.take_of_length_le (by omega)]
          rw [h1, List.drop_eq_nil_of_le (le_of_lt hc),
              List.drop_eq_nil_of_le (by omega)]

theorem midRun_pos_aux (oracle : Oracle) (B outIdx : Nat) :
    ∀ (k pos : Nat) (todo : List (Option String)) (rows : List (List String)),
    (midRun oracle B outIdx k (pos, todo, rows)).1
      = pos + (((batchSlices B todo).take k).map List.length).sum := by
  intro k
  induction k with
  | zero =>
    intro pos todo rows
    simp [midRun]
  | succ m ih =>
    intro pos todo rows
    by_cases hB : B = 0
    · rw [midRun, if_pos hB, batchSlices.eq_def, if_pos hB]
      simp
    · by_cases ht : todo = []
      · rw [midRun, if_neg hB, if_pos ht]
        subst ht
        rw [batchSlices_nil]
        simp
      · rw [midRun, if_neg hB, if_neg ht, batchSlices_stepped _ _ hB ht]
        rw [ih]
        simp only [List.take_succ_cons, List.map_cons, List.sum_cons]
        omega

/-- C2: idempotent resumption.  For every identifier sequence, batch
size and batch count k, interrupting the engine after batch k — at which
point the durable file holds exactly the first-k-batches table and the
checkpoint holds the cumulative offset — and resuming from that stored
offset over `dois.drop offset` yields the same final in-memory rows and
the same final durable file as the uninterrupted run (deterministic
remote, successful writes: the claim's premise that batch k's output
write and checkpoint save completed). -/
theorem resumption_idempotent (oracle : Oracle) (B : Nat) (hdr : List String)
    (outIdx : Nat) (dois : List (Option String)) (rows : List (List String)) (k : Nat) :
    (runLoop oracle (fun _ => false) B hdr outIdx
        (midRun oracle B outIdx k (0, dois, rows)).1
        (dois.drop (midRun oracle B outIdx k (0, dois, rows)).1) 0
        ⟨(midRun oracle B outIdx k (0, dois, rows)).2.2,
         some (hdr, (midRun oracle B outIdx k (0, dois, rows)).2.2), [], [], []⟩).rows
      = (runLoop oracle (fun _ => false) B hdr outIdx 0 dois 0
          ⟨rows, some (hdr, rows), [], [], []⟩).rows ∧
    (runLoop oracle (fun _ => false) B hdr outIdx
        (midRun oracle B outIdx k (0, dois, rows)).1
        (dois.drop (midRun oracle B outIdx k (0, dois, rows)).1) 0
        ⟨(midRun oracle B outIdx k (0, dois, rows)).2.2,
         some (hdr, (midRun oracle B outIdx k (0, dois, rows)).2.2), [], [], []⟩).durable
      = (runLoop oracle (fun _ => false) B hdr outIdx 0 dois 0
          ⟨rows, some (hdr, rows), [], [], []⟩).durable ∧
    (midRun oracle B outIdx k (0, dois, rows)).1
      = (((batchSlices B dois).take k).map List.length).sum := by
  have hdropeq : dois.drop (midRun oracle B outIdx k (0, dois, rows)).1
      = (midRun oracle B outIdx k (0, dois, rows)).2.1 :=
    (midRun_drop_aux oracle B outIdx dois k 0 dois rows (List.drop_zero dois).symm).symm
  have hrows : (runLoop oracle (fun _ => false) B hdr outIdx
        (midRun oracle B outIdx k (0, dois, rows)).1
        (dois.drop (midRun oracle B outIdx k (0, dois, rows)).1) 0
        ⟨(midRun oracle B outIdx k (0, dois, rows)).2.2,
         some (hdr, (midRun oracle B outIdx k (0, dois, rows)).2.2), [], [], []⟩).rows
      = (runLoop oracle (fun _ => false) B hdr outIdx 0 dois 0
          ⟨rows, some (hdr, rows), [], [], []⟩).rows := by
    rw [hdropeq]
    exact (runLoop_midRun_aux oracle B hdr outIdx k 0 dois rows 0
      (some (hdr, rows)) [] [] []).symm
  refine ⟨hrows, ?_, ?_⟩
  · rw [runLoop_durable_inv_aux oracle B hdr outIdx _ _ (le_refl _) _ _ _ (by simp),
        runLoop_durable_inv_aux oracle B hdr outIdx _ _ (le_refl _) _ _ _ (by simp),
        hrows]
  · have h := midRun_pos_aux oracle B outIdx k 0 dois rows
    omega

/-- C9 amended: only the identifier (DOI) column reference is
bounds-checked at startup: if it lies at or beyond the header length the
run fails before any batch with the out-of-bounds report, performing no
remote call, output write or checkpoint write (the error return carries
no loop state).  The output start column is not checked (see the
counterexample). -/
theorem doi_column_oob_fatal (extract : String → Option String) (oracle : Oracle)
    (wfail : Nat → Bool) (header : List String) (dataRows : List (List String))
    (doiCol outIdx B : Nat) (resume : Bool) (chkFile : Option (List String))
    (inputName : String) (h : header.length ≤ doiCol) :
    mainModel extract oracle wfail (header :: dataRows) doiCol outIdx B resume
        chkFile inputName
      = .error "DOI column is out of bounds" := by
  simp only [mainModel]
  rw [if_pos h]

/-- C9 witness: a concrete out-of-bounds DOI column discharging the
hypothesis of `doi_column_oob_fatal`. -/
theorem doi_column_oob_fatal_witness :
    (["d"] : List String).length ≤ 1 ∧
    mainModel (fun s => if s = "" then none else some s) (fun _ _ => .resp 200 [])
        (fun _ => false) [["d"], ["10.1/a"]] 1 5 1 false none "in.csv"
      = .error "DOI column is out of bounds" :=
  ⟨by decide,
   doi_column_oob_fatal (fun s => if s = "" then none else some s) (fun _ _ => .resp 200 [])
     (fun _ => false) ["d"] [["10.1/a"]] 1 5 1 false none "in.csv" (by decide)⟩

/-- C9 counterexample: with the output start column (index 5) out of
bounds of the 1-column header, the run does NOT fail at startup: it
proceeds, performs a remote call and saves a checkpoint (the header and
rows are extended instead, source lines 252-257, 292-297) — contrary to
the claim that any out-of-bounds column reference is fatal before any
batch. -/
theorem output_column_oob_not_checked :
    (["d"] : List String).length ≤ 5 ∧
    Except.map (fun p => p.2.calls)
      (mainModel (fun s => if s = "" then none else some s) (fun _ _ => .resp 200 [])
        (fun _ => false) [["d"], ["10.1/a"]] 0 5 1 false none "in.csv")
      = .ok [["10.1/a"]] ∧
    Except.map (fun p => p.2.offsets)
      (mainModel (fun s => if s = "" then none else some s) (fun _ _ => .resp 200 [])
        (fun _ => false) [["d"], ["10.1/a"]] 0 5 1 false none "in.csv")
      = .ok [1] := by
  have hfetch : get_metadata_in_batch (fun _ _ => Outcome.resp 200 []) ["10.1/a"]
      = ⟨[], [], [["10.1/a"]], []⟩ := by
    rw [gmb_all_ne _ _ (by decide) (by decide)]
    exact fetchGo_ok _ _ _ (by decide) 200 [] (by decide) rfl
  have hbf : batchFetch (fun _ _ => Outcome.resp 200 []) 1 [some "10.1/a"]
      = ⟨[], [], [["10.1/a"]], []⟩ := by
    rw [batchFetch]
    simp only [List.take, List.filterMap, id]
    rw [if_neg (by decide)]
    exact hfetch
  have hmain : mainModel (fun s => if s = "" then none else some s)
      (fun _ _ => Outcome.resp 200 []) (fun _ => false) [["d"], ["10.1/a"]] 0 5 1 false
      none "in.csv"
      = .ok (setHeader ["d"] 5,
          runLoop (fun _ _ => Outcome.resp 200 []) (fun _ => false) 1 (setHeader ["d"] 5) 5
            0 [some "10.1/a"] 0
            ⟨[["10.1/a"]], some (["d"], [["10.1/a"]]), [], [], []⟩) := by
    simp only [mainModel]
    norm_num
    rw [if_neg (by decide)]
    rfl
  rw [hmain]
  rw [runLoop_stepped _ _ _ _ _ _ _ _ _ (by decide) (by decide)]
  have hdrop : List.drop 1 [some "10.1/a"] = ([] : List (Option String)) := rfl
  rw [hdrop, runLoop_nil, hbf]
  exact ⟨by decide, rfl, rfl⟩
